import Mathlib

/-!
# Package Delivery Tracker (mock): the tracking-state derivation

A shallow embedding of `script.js`.  JavaScript numbers that the program only
ever uses as integers (epoch milliseconds, minute offsets, indices) are
integers here; environment readings (`Date.now()`, `Math.random()`, the handle
returned by `setInterval`) are explicit arguments; `localStorage` is an
explicit key-value store that is passed in and returned.
-/

namespace PackageTracker

/-! ## Data model (script.js, lines 77-113) -/

/-- One route event.  `tsOffsetMin` is the number of minutes from the start.
`lat` and `lng` are kept in units of 1/10000 of a degree (the source writes
them as decimals with at most four places); nothing below computes with them. -/
structure Event where
  title : String
  tsOffsetMin : Nat
  lat : Int
  lng : Int
  location : String
  statusKey : String
deriving DecidableEq, Repr

/-- One entry of the catalog: the carrier and the ordered events. -/
structure Package where
  carrier : String
  route : List Event
deriving DecidableEq, Repr

/-- The own properties of the object literal `MOCK_DB`, in source order. -/
def MOCK_DB : List (String × Package) :=
  [ ("TM123456789", Package.mk "MockExpress"
      [ Event.mk "Label created" 0 340522 (-1182437) "Los Angeles, CA" "created",
        Event.mk "Picked up" 60 341000 (-1183000) "Los Angeles, CA" "picked",
        Event.mk "In transit" 240 361699 (-1151398) "Las Vegas, NV" "in_transit",
        Event.mk "Arrived at facility" 360 397392 (-1049903) "Denver, CO" "facility",
        Event.mk "Out for delivery" 1320 397420 (-1049900) "Denver, CO" "out_for_delivery",
        Event.mk "Delivered" 1440 397420 (-1049900) "Denver, CO" "delivered" ]),
    ("TM987654321", Package.mk "RapidShip"
      [ Event.mk "Label created" 0 407128 (-740060) "New York, NY" "created",
        Event.mk "In transit" 180 412033 (-771945) "Pennsylvania, USA" "in_transit",
        Event.mk "Arrived at facility" 360 399526 (-751652) "Philadelphia, PA" "facility",
        Event.mk "Out for delivery" 1260 399526 (-751652) "Philadelphia, PA" "out_for_delivery",
        Event.mk "Delivered" 1380 399526 (-751652) "Philadelphia, PA" "delivered" ]),
    ("TM555000111", Package.mk "ParcelGo"
      [ Event.mk "Label created" 0 476062 (-1223321) "Seattle, WA" "created",
        Event.mk "Picked up" 90 477000 (-1223300) "Seattle, WA" "picked",
        Event.mk "In transit" 360 455152 (-1226784) "Portland, OR" "in_transit",
        Event.mk "Arrived at facility" 720 440521 (-1230868) "Eugene, OR" "facility",
        Event.mk "Out for delivery" 1320 377749 (-1224194) "San Francisco, CA" "out_for_delivery",
        Event.mk "Delivered" 1440 377749 (-1224194) "San Francisco, CA" "delivered" ]) ]

/-! ## The derivation inside `getMockTracking` (script.js, lines 130-137) -/

/-- Line 130: `Math.max(0, Math.floor((Date.now() - startTime) / 60000))`.
On `Int`, `/` with a positive divisor is the floor of the quotient. -/
def elapsedMin (startTime now : Int) : Int :=
  max 0 ((now - startTime) / 60000)

/-- Lines 133-135, the loop body iterated over the events still to visit:
`i` is the loop counter, `idx` the running value of the variable `idx`. -/
def scanRoute (elapsed : Int) : List Event → Nat → Nat → Nat
  | [], _, idx => idx
  | ev :: rest, i, idx =>
      scanRoute elapsed rest (i + 1) (if elapsed ≥ (ev.tsOffsetMin : Int) then i else idx)

/-- Lines 130-135: `idx` after the loop, which becomes `currentIndex`. -/
def currentIndex (route : List Event) (startTime now : Int) : Nat :=
  scanRoute (elapsedMin startTime now) route 0 0

/-- Line 137: `startTime + route[route.length - 1].tsOffsetMin * 60000`.
On an empty route `route[-1]` is `undefined` and the property read throws:
`none`. -/
def etaMs (route : List Event) (startTime : Int) : Option Int :=
  (route[route.length - 1]?).map (fun ev => startTime + (ev.tsOffsetMin : Int) * 60000)

/-! ## `formatCountdown` (script.js, lines 196-209) -/

/-- Lines 196-209.  The template literals print non-negative integers in
decimal; `parts.join(' ')` is `String.intercalate " "`. -/
def formatCountdown (ms : Int) : String :=
  if ms ≤ 0 then "Arrived"
  else
    let s : Nat := (ms / 1000).toNat
    let d := s / 86400
    let h := (s % 86400) / 3600
    let m := (s % 3600) / 60
    let sec := s % 60
    let parts : List String := []
    let parts := if d ≠ 0 then parts ++ [toString d ++ "d"] else parts
    let parts := if h ≠ 0 ∨ d ≠ 0 then parts ++ [toString h ++ "h"] else parts
    let parts := parts ++ [toString m ++ "m"]
    let parts := parts ++ [toString sec ++ "s"]
    String.intercalate " " parts

/-- The route of a catalog entry, or the empty list for a key that is not an
own property of `MOCK_DB`. -/
def catalogRoute (tracking : String) : List Event :=
  ((MOCK_DB.lookup tracking).map Package.route).getD []

/-! ## `localStorage` and the built-ins the program calls on stored strings -/

/-- The store behind `localStorage`: `none` is what `getItem` reports as
`null`. -/
abbrev Store := String → Option String

/-- `localStorage.getItem(key)`. -/
def getItem (store : Store) (key : String) : Option String := store key

/-- `localStorage.setItem(key, value)`. -/
def setItem (store : Store) (key value : String) : Store :=
  fun k => if k = key then some value else store k

/-- A store with no entry. -/
def emptyStore : Store := fun _ => none

/-- Line 32. -/
def LS_START_PREFIX : String := "pkg_startTime:"

/-- Line 33. -/
def LS_LAST_STATUS_PREFIX : String := "pkg_lastStatus:"

/-- Truthiness of a value that is `null` or a string, as tested by `if (v)` and
by `prevStatus && ...`: `null` and the empty string are falsy. -/
def truthy (v : Option String) : Bool :=
  match v with
  | none => false
  | some s => decide (s ≠ "")

/-- The code points ECMAScript strips as leading white space in `parseInt`
(WhiteSpace and LineTerminator). -/
def isStrWhiteSpaceChar (c : Char) : Bool :=
  decide (c.toNat ∈ [0x9, 0xA, 0xB, 0xC, 0xD, 0x20, 0xA0, 0x1680, 0x2028, 0x2029, 0x202F,
    0x205F, 0x3000, 0xFEFF]) || (decide (0x2000 ≤ c.toNat) && decide (c.toNat ≤ 0x200A))

/-- The value of a run of decimal digits, most significant first. -/
def digitsValue (digits : List Char) : Nat :=
  digits.foldl (fun acc c => acc * 10 + (c.toNat - 48)) 0

/-- The optional sign `parseInt` reads: whether it was a minus, and the rest. -/
def splitSign : List Char → Bool × List Char
  | '-' :: rest => (true, rest)
  | '+' :: rest => (false, rest)
  | other => (false, other)

/-- `parseInt(v, 10)`: skip leading white space, read an optional sign, then
the longest run of decimal digits; `none` is `NaN` (no digit found).  The
result is kept as an exact integer. -/
def parseInt (v : String) : Option Int :=
  let signed := splitSign (v.data.dropWhile isStrWhiteSpaceChar)
  let digits := signed.2.takeWhile Char.isDigit
  if digits = [] then none
  else if signed.1 then some (-(digitsValue digits : Int))
  else some (digitsValue digits : Int)

/-! ## `getStartTime` (script.js, lines 116-123) -/

/-- Lines 116-123.  `dateNow` is the reading of `Date.now()` and `draw` the
value of `Math.floor(Math.random()*240)`; both are consulted only when no
truthy entry is stored.  The result is the returned number (`none` for `NaN`)
and the store afterwards.  `String(now)` prints the integer in decimal. -/
def getStartTime (store : Store) (tracking : String) (dateNow : Int) (draw : Nat) :
    Option Int × Store :=
  let key := LS_START_PREFIX ++ tracking
  let v := getItem store key
  if truthy v then ((v.bind parseInt), store)
  else
    let now := dateNow - ((draw * 60 * 1000 : Nat) : Int)
    (some now, setItem store key (toString now))

/-! ## `getMockTracking` (script.js, lines 125-145) -/

/-- The names `MOCK_DB` inherits from `Object.prototype`: an object literal
answers a property read for each of them with a function or an object. -/
def objectPrototypeKeys : List String :=
  ["constructor", "__defineGetter__", "__defineSetter__", "hasOwnProperty",
   "__lookupGetter__", "__lookupSetter__", "isPrototypeOf", "propertyIsEnumerable",
   "toString", "valueOf", "__proto__", "toLocaleString"]

/-- What the property read `MOCK_DB[tracking]` evaluates to. -/
inductive Lookup where
  | own (pkg : Package)
  | inherited
  | undefined
deriving DecidableEq, Repr

/-- Line 126: `MOCK_DB[tracking]`.  Own properties come first, then the
prototype chain; both kinds of hit are truthy, `undefined` is falsy. -/
def lookupMockDb (tracking : String) : Lookup :=
  match MOCK_DB.lookup tracking with
  | some pkg => Lookup.own pkg
  | none => if tracking ∈ objectPrototypeKeys then Lookup.inherited else Lookup.undefined

/-- How a call ends: with a returned value or with a thrown `TypeError`. -/
inductive Outcome (α : Type) where
  | returned (value : α)
  | threw
deriving DecidableEq, Repr

/-- The object built on lines 138-144.  `nowEvent` is `none` when `route[idx]`
is `undefined`; `eta` is `none` when the number is `NaN`. -/
structure TrackingSession where
  carrier : String
  route : List Event
  currentIndex : Nat
  nowEvent : Option Event
  eta : Option Int
deriving DecidableEq, Repr

/-- Lines 130-135 on the number `getStartTime` returned: with `NaN` every
comparison `elapsedMin >= ...` is false and `idx` stays 0. -/
def currentIndexOf (route : List Event) (startTime : Option Int) (now : Int) : Nat :=
  match startTime with
  | some t => currentIndex route t now
  | none => 0

/-- Lines 125-145.  `dateNowA` and `draw` are the readings `getStartTime` may
take, `dateNowB` the reading of line 130.  `returned none` is `return null`.
For an inherited hit, `pkg.route` is `undefined` and `route.length` on line
133 throws, after `getStartTime` has run on line 128.  For an own package with
an empty route, line 137 throws. -/
def getMockTracking (store : Store) (tracking : String) (dateNowA : Int) (draw : Nat)
    (dateNowB : Int) : Outcome (Option TrackingSession) × Store :=
  match lookupMockDb tracking with
  | Lookup.undefined => (Outcome.returned none, store)
  | Lookup.inherited => (Outcome.threw, (getStartTime store tracking dateNowA draw).2)
  | Lookup.own pkg =>
    let started := getStartTime store tracking dateNowA draw
    let route := pkg.route
    let idx := currentIndexOf route started.1 dateNowB
    match route[route.length - 1]? with
    | none => (Outcome.threw, started.2)
    | some _ =>
      (Outcome.returned (some (TrackingSession.mk pkg.carrier route idx route[idx]?
        (started.1.bind (fun t => etaMs route t)))), started.2)

/-! ## `updateUI` (script.js, lines 214-246) -/

/-- What `updateUI` reads and writes besides the map and the timeline list:
the store, the module variable `currentTracking`, the calls made to
`showToast` and to `notify` (title and body), and the text of the four
elements it fills in. -/
structure UIState where
  store : Store
  currentTracking : Option String
  toasts : List String
  notified : List (String × String)
  statusText : String
  carrierText : String
  trackingNumText : String
  etaCountdown : String

/-- Lines 239-240 on `data.eta - Date.now()`: on `NaN` no comparison holds and
no field is truthy, so the minute and second fields print `NaN`. -/
def formatCountdownOf (eta : Option Int) (now : Int) : String :=
  match eta with
  | some e => formatCountdown (e - now)
  | none => "NaNm NaNs"

/-- Lines 214-240.  `dateNowC` is the reading of line 239.  The result tells
whether the call returned or threw.  Lines 228 and 241 print dates, and lines
244-245 draw the map and the timeline; `renderTimeline` calls `getStartTime`
again, which only reads the entry line 128 has ensured. -/
def updateUI (ui : UIState) (tracking : String) (dateNowA : Int) (draw : Nat)
    (dateNowB dateNowC : Int) : Outcome Unit × UIState :=
  match getMockTracking ui.store tracking dateNowA draw dateNowB with
  | (Outcome.threw, store1) =>
    (Outcome.threw, UIState.mk store1 ui.currentTracking ui.toasts ui.notified
      ui.statusText ui.carrierText ui.trackingNumText ui.etaCountdown)
  | (Outcome.returned none, store1) =>
    (Outcome.returned (), UIState.mk store1 ui.currentTracking
      (ui.toasts ++ ["Tracking number not found"]) ui.notified
      ui.statusText ui.carrierText ui.trackingNumText ui.etaCountdown)
  | (Outcome.returned (some data), store1) =>
    match data.nowEvent with
    | none =>
      (Outcome.threw, UIState.mk store1 (some tracking) ui.toasts ui.notified
        ui.statusText ui.carrierText ui.trackingNumText ui.etaCountdown)
    | some nowEv =>
      let nowLabel := nowEv.title
      let lastKey := LS_LAST_STATUS_PREFIX ++ tracking
      let prevStatus := getItem store1 lastKey
      let notified :=
        if truthy prevStatus && decide (prevStatus ≠ some nowEv.statusKey)
        then ui.notified ++ [("Status changed", tracking ++ ": " ++ nowLabel)]
        else ui.notified
      let store2 := setItem store1 lastKey nowEv.statusKey
      (Outcome.returned (), UIState.mk store2 (some tracking) ui.toasts notified
        nowLabel ("Carrier: " ++ data.carrier) ("Tracking: " ++ tracking)
        (formatCountdownOf data.eta dateNowC))

/-! ## `startPolling` (script.js, lines 248-251) -/

/-- The driver state: the module variable `pollTimer` (`none` is `null`) and
the interval timers the host has armed, each with its handle and the tracking
number its callback re-evaluates. -/
structure Driver where
  pollTimer : Option Nat
  armed : List (Nat × String)
deriving DecidableEq, Repr

/-- The state the script starts in (line 212): no handle, nothing armed. -/
def initialDriver : Driver := Driver.mk none []

/-- `clearInterval(handle)`: the timer with that handle, if any, is disarmed. -/
def clearInterval (armed : List (Nat × String)) (handle : Nat) : List (Nat × String) :=
  armed.filter (fun t => decide (t.1 ≠ handle))

/-- Lines 248-251.  `handle` is the number `setInterval` returns for the new
timer; hosts hand out integers greater than zero, hence the type.  The test
`if (pollTimer)` is false for `null` and for the number 0. -/
def startPolling (d : Driver) (tracking : String) (handle : ℕ+) : Driver :=
  let armed1 :=
    match d.pollTimer with
    | some old => if old ≠ 0 then clearInterval d.armed old else d.armed
    | none => d.armed
  Driver.mk (some (handle : Nat)) (armed1 ++ [((handle : Nat), tracking)])

/-- A sequence of `startPolling` calls, each with its tracking number and the
handle `setInterval` returns to it. -/
def runPolling (d : Driver) (calls : List (String × ℕ+)) : Driver :=
  calls.foldl (fun st call => startPolling st call.1 call.2) d

/-- No last-status entry of the store is the empty string: every entry is
absent or holds a text such as the status keys line 236 writes. -/
def StatusEntriesOk (store : Store) : Prop :=
  ∀ t : String, getItem store (LS_LAST_STATUS_PREFIX ++ t) ≠ some ""

/-- Nothing is armed and no handle is stored, or exactly one timer is armed and
the stored handle is its positive handle. -/
def DriverOk (d : Driver) : Prop :=
  (d.pollTimer = none ∧ d.armed = []) ∨
  ∃ (h : Nat) (t : String), 0 < h ∧ d.pollTimer = some h ∧ d.armed = [(h, t)]

/-- A two-event route whose second event is also at offset 0. -/
def tiedRoute : List Event :=
  [ Event.mk "Label created" 0 340522 (-1182437) "Los Angeles, CA" "created",
    Event.mk "Picked up" 0 341000 (-1183000) "Los Angeles, CA" "picked" ]

/-- A page state whose store holds the empty string as the last status of
the first catalog number, and nothing else. -/
def emptyStatusUI : UIState :=
  UIState.mk (setItem emptyStore "pkg_lastStatus:TM123456789" "") none [] [] "" "" "" ""

/-- A page state whose store holds `created` as the last status of the first
catalog number and 0 as its start time. -/
def createdUI : UIState :=
  UIState.mk
    (setItem (setItem emptyStore "pkg_startTime:TM123456789" "0")
      "pkg_lastStatus:TM123456789" "created")
    none [] [] "" "" "" ""

/-- A page state with an empty store. -/
def freshUI : UIState := UIState.mk emptyStore none [] [] "" "" "" ""

/-! ## Facts about the scan -/

/-- Either the scan leaves `idx` untouched because no visited event qualifies,
or it stops at the position of the last qualifying event. -/
theorem scanRoute_cases (e : Int) : ∀ (l : List Event) (i idx : Nat),
    (scanRoute e l i idx = idx ∧ ∀ (j : Nat) (ev : Event), l[j]? = some ev → ¬ ((ev.tsOffsetMin : Int) ≤ e)) ∨
    (∃ (j : Nat) (ev : Event), l[j]? = some ev ∧ (ev.tsOffsetMin : Int) ≤ e ∧
      scanRoute e l i idx = i + j ∧
      ∀ (k : Nat) (ev2 : Event), l[k]? = some ev2 → (ev2.tsOffsetMin : Int) ≤ e → k ≤ j) := by
  intro l
  induction l with
  | nil =>
    intro i idx
    left
    exact ⟨rfl, by intro j ev h; simp at h⟩
  | cons ev rest ih =>
    intro i idx
    by_cases hq : (ev.tsOffsetMin : Int) ≤ e
    · rcases ih (i + 1) i with ⟨hr, hnone⟩ | ⟨j, ev1, hj, hle, hr, hmax⟩
      · right
        refine ⟨0, ev, by simp, hq, ?_, ?_⟩
        · simp [scanRoute, hq, hr]
        · intro k ev2 hk hle2
          cases k with
          | zero => exact Nat.le_refl 0
          | succ k => exact absurd hle2 (hnone k ev2 (by simpa using hk))
      · right
        refine ⟨j + 1, ev1, by simpa using hj, hle, ?_, ?_⟩
        · simp [scanRoute, hq, hr]; omega
        · intro k ev2 hk hle2
          cases k with
          | zero => omega
          | succ k => exact Nat.succ_le_succ (hmax k ev2 (by simpa using hk) hle2)
    · rcases ih (i + 1) idx with ⟨hr, hnone⟩ | ⟨j, ev1, hj, hle, hr, hmax⟩
      · left
        refine ⟨by simp [scanRoute, hq, hr], ?_⟩
        intro k ev2 hk
        cases k with
        | zero =>
          have : ev = ev2 := by simpa using hk
          subst this
          exact hq
        | succ k => exact hnone k ev2 (by simpa using hk)
      · right
        refine ⟨j + 1, ev1, by simpa using hj, hle, ?_, ?_⟩
        · simp [scanRoute, hq, hr]; omega
        · intro k ev2 hk hle2
          cases k with
          | zero => omega
          | succ k => exact Nat.succ_le_succ (hmax k ev2 (by simpa using hk) hle2)

/-- The scan from `(0, 0)` never leaves the route. -/
theorem scanRoute_lt_length (e : Int) (l : List Event) (hne : l ≠ []) :
    scanRoute e l 0 0 < l.length := by
  have hpos : 0 < l.length := List.length_pos.mpr hne
  rcases scanRoute_cases e l 0 0 with ⟨hr, _⟩ | ⟨j, ev, hj, _, hr, _⟩
  · omega
  · have hjl : j < l.length := (List.getElem?_eq_some_iff.mp hj).1
    omega

/-- The scan is monotone in the elapsed minutes. -/
theorem scanRoute_mono (l : List Event) (e1 e2 : Int) (h : e1 ≤ e2) :
    scanRoute e1 l 0 0 ≤ scanRoute e2 l 0 0 := by
  rcases scanRoute_cases e1 l 0 0 with ⟨hr, _⟩ | ⟨j, ev, hj, hle, hr, _⟩
  · omega
  · rcases scanRoute_cases e2 l 0 0 with ⟨_, hnone⟩ | ⟨j2, ev2, _, _, hr2, hmax2⟩
    · exact absurd (le_trans hle h) (hnone j ev hj)
    · have := hmax2 j ev hj (le_trans hle h)
      omega

/-- The elapsed minutes are monotone in the clock reading. -/
theorem elapsedMin_mono (startTime now1 now2 : Int) (h : now1 ≤ now2) :
    elapsedMin startTime now1 ≤ elapsedMin startTime now2 := by
  unfold elapsedMin
  omega

/-- The elapsed minutes reach `n` exactly from `n * 60000` milliseconds on,
for a positive `n`; for `n = 0` they always do. -/
theorem le_elapsedMin_iff (startTime now : Int) (n : Nat) :
    (n : Int) ≤ elapsedMin startTime now ↔ (n = 0 ∨ startTime + (n : Int) * 60000 ≤ now) := by
  unfold elapsedMin
  omega

/-- The quotient in `elapsedMin` is the floor of the exact quotient. -/
theorem elapsedMin_eq_floor (startTime now : Int) :
    elapsedMin startTime now = max 0 (Int.fdiv (now - startTime) 60000) := by
  unfold elapsedMin
  rw [Int.fdiv_eq_ediv _ (by decide : (0 : Int) ≤ 60000)]

/-- The last event of a non-empty route is the one line 137 reads. -/
theorem getElem?_length_sub_one (route : List Event) (hne : route ≠ []) :
    route[route.length - 1]? = some (route.getLast hne) := by
  rw [List.getLast_eq_getElem]
  exact List.getElem?_eq_getElem _

/-- The ETA of a non-empty route. -/
theorem etaMs_of_ne_nil (route : List Event) (startTime : Int) (hne : route ≠ []) :
    etaMs route startTime =
      some (startTime + ((route.getLast hne).tsOffsetMin : Int) * 60000) := by
  simp [etaMs, getElem?_length_sub_one route hne]

/-- Once the last event qualifies the scan ends on the last index. -/
theorem scanRoute_eq_last (e : Int) (l : List Event) (hne : l ≠ [])
    (h : ((l.getLast hne).tsOffsetMin : Int) ≤ e) : scanRoute e l 0 0 = l.length - 1 := by
  have hlt := scanRoute_lt_length e l hne
  rcases scanRoute_cases e l 0 0 with ⟨_, hnone⟩ | ⟨j, ev, _, _, hr, hmax⟩
  · exact absurd h (hnone _ _ (getElem?_length_sub_one l hne))
  · have := hmax _ _ (getElem?_length_sub_one l hne) h
    omega

/-- On a route with at least two events the scan ends on the last index only
when the last event qualifies. -/
theorem scanRoute_eq_last_iff (e : Int) (l : List Event) (hne : l ≠ []) (h2 : 2 ≤ l.length) :
    scanRoute e l 0 0 = l.length - 1 ↔ ((l.getLast hne).tsOffsetMin : Int) ≤ e := by
  constructor
  · intro h
    rcases scanRoute_cases e l 0 0 with ⟨hr, _⟩ | ⟨j, ev, hj, hle, hr, _⟩
    · omega
    · have hj2 : l[l.length - 1]? = some ev := by
        have : j = l.length - 1 := by omega
        rw [← this]; exact hj
      rw [getElem?_length_sub_one l hne] at hj2
      have : l.getLast hne = ev := by simpa using hj2
      rw [this]; exact hle
  · exact scanRoute_eq_last e l hne

/-- On a catalog entry with a non-empty route and a numeric start time `t`,
`getMockTracking` returns the session whose index is `currentIndex` and whose
ETA is `etaMs`. -/
theorem getMockTracking_own (store : Store) (tracking : String) (dateNowA : Int) (draw : Nat)
    (dateNowB : Int) (pkg : Package) (t : Int)
    (hown : lookupMockDb tracking = Lookup.own pkg) (hne : pkg.route ≠ [])
    (hstart : (getStartTime store tracking dateNowA draw).1 = some t) :
    (getMockTracking store tracking dateNowA draw dateNowB).1 =
      Outcome.returned (some (TrackingSession.mk pkg.carrier pkg.route
        (currentIndex pkg.route t dateNowB)
        pkg.route[currentIndex pkg.route t dateNowB]?
        (etaMs pkg.route t))) := by
  unfold getMockTracking
  simp only [hown, hstart, getElem?_length_sub_one pkg.route hne, currentIndexOf]
  rfl

/-! ## Facts about `formatCountdown` -/

/-- Joining with a last element appends separator and element to the fold. -/
theorem intercalate_go_snoc (sep : String) (l : List String) (y acc : String) :
    String.intercalate.go acc sep (l ++ [y]) = String.intercalate.go acc sep l ++ sep ++ y := by
  induction l generalizing acc with
  | nil => simp [String.intercalate.go]
  | cons a rest ih => simp [String.intercalate.go, ih]

/-- Joining a list that ends in `y` gives a string that ends in `y`. -/
theorem intercalate_snoc (sep : String) (l : List String) (y : String) :
    ∃ p : String, String.intercalate sep (l ++ [y]) = p ++ y := by
  cases l with
  | nil => exact ⟨"", by simp [String.intercalate, String.intercalate.go]⟩
  | cons a rest =>
    refine ⟨String.intercalate.go a sep rest ++ sep, ?_⟩
    simp [String.intercalate, intercalate_go_snoc]

/-- On a positive duration the countdown ends in the seconds field. -/
theorem formatCountdown_pos_shape (ms : Int) (h : 0 < ms) :
    ∃ p x : String, formatCountdown ms = p ++ (x ++ "s") := by
  have hn : ¬ ms ≤ 0 := not_le.mpr h
  unfold formatCountdown
  simp only [hn, if_false]
  obtain ⟨p, hp⟩ := intercalate_snoc " "
    ((if (ms / 1000).toNat / 86400 ≠ 0 then [] ++ [toString ((ms / 1000).toNat / 86400) ++ "d"] else []) ++
         (if (ms / 1000).toNat / 86400 ≠ 0 ∨ (ms / 1000).toNat % 86400 / 3600 ≠ 0
            then [toString ((ms / 1000).toNat % 86400 / 3600) ++ "h"] else []) ++
         [toString ((ms / 1000).toNat % 3600 / 60) ++ "m"]) (toString ((ms / 1000).toNat % 60) ++ "s")
  refine ⟨p, toString ((ms / 1000).toNat % 60), ?_⟩
  rw [← hp]
  by_cases hd : (ms / 1000).toNat / 86400 = 0 <;>
    by_cases hh : (ms / 1000).toNat % 86400 / 3600 = 0 <;>
    simp [hd, hh]

/-- The countdown is the arrived indicator exactly on a non-positive duration. -/
theorem formatCountdown_eq_arrived_iff (ms : Int) :
    formatCountdown ms = "Arrived" ↔ ms ≤ 0 := by
  constructor
  · intro h
    by_contra hn
    obtain ⟨p, x, hp⟩ := formatCountdown_pos_shape ms (not_le.mp hn)
    rw [hp] at h
    have h2 := congrArg (fun t : String => t.data.getLast?) h
    simp at h2
  · intro h
    simp [formatCountdown, h]

/-! ## The derivation: claims C1 to C4 and C10 -/

/-- C1.  On a non-empty route the derived `currentIndex` is a valid index; when
some event has its offset at or below the elapsed minutes, `currentIndex` is
such an event and no later index qualifies (it is the largest one); when none
qualifies it is 0.  On the demo offsets `[0, 60, 240, 360, 1320, 1440]`, one
hundred minutes after the start the index is 1. -/
theorem C1_currentIndex_is_largest_qualifying (route : List Event) (startTime now : Int)
    (hne : route ≠ []) :
    currentIndex route startTime now < route.length ∧
    ((∃ (i : Nat) (ev : Event), route[i]? = some ev ∧
        (ev.tsOffsetMin : Int) ≤ elapsedMin startTime now) →
      (∃ ev : Event, route[currentIndex route startTime now]? = some ev ∧
        (ev.tsOffsetMin : Int) ≤ elapsedMin startTime now) ∧
      ∀ (i : Nat) (ev : Event), route[i]? = some ev →
        (ev.tsOffsetMin : Int) ≤ elapsedMin startTime now →
        i ≤ currentIndex route startTime now) ∧
    ((∀ (i : Nat) (ev : Event), route[i]? = some ev →
        ¬ (ev.tsOffsetMin : Int) ≤ elapsedMin startTime now) →
      currentIndex route startTime now = 0) ∧
    ((catalogRoute "TM123456789").map Event.tsOffsetMin = [0, 60, 240, 360, 1320, 1440] ∧
      ∀ T : Int, currentIndex (catalogRoute "TM123456789") T (T + 100 * 60000) = 1) := by
  refine ⟨scanRoute_lt_length _ route hne, ?_, ?_, by decide, ?_⟩
  · rintro ⟨i, ev, hi, hle⟩
    unfold currentIndex
    rcases scanRoute_cases (elapsedMin startTime now) route 0 0 with
      ⟨_, hnone⟩ | ⟨j, ev1, hj, hle1, hr, hmax⟩
    · exact absurd hle (hnone i ev hi)
    · have hrj : scanRoute (elapsedMin startTime now) route 0 0 = j := by omega
      rw [hrj]
      exact ⟨⟨ev1, hj, hle1⟩, hmax⟩
  · intro hnone
    unfold currentIndex
    rcases scanRoute_cases (elapsedMin startTime now) route 0 0 with
      ⟨hr, _⟩ | ⟨j, ev1, hj, hle1, _, _⟩
    · exact hr
    · exact absurd hle1 (hnone j ev1 hj)
  · intro T
    have he : elapsedMin T (T + 100 * 60000) = 100 := by
      unfold elapsedMin
      omega
    unfold currentIndex
    rw [he]
    decide

/-- C1 at the first catalog route, start time 1000 and a clock one hundred
minutes later. -/
theorem C1_witness :
    catalogRoute "TM123456789" ≠ [] ∧
    currentIndex (catalogRoute "TM123456789") 1000 6001000 < 6 ∧
    currentIndex (catalogRoute "TM123456789") 1000 6001000 = 1 :=
  ⟨by decide,
   (C1_currentIndex_is_largest_qualifying (catalogRoute "TM123456789") 1000 6001000
      (by decide)).1,
   by decide⟩

/-- C2.  On a non-empty route, once the clock has reached
`startTime + lastOffset * 60000` the derived index is the last index and the
countdown of `eta - now` is the arrived indicator.  On the demo offsets, 1440
minutes after the start the index is 5 and the countdown reads Arrived. -/
theorem C2_at_or_after_eta_last_index_and_arrived (route : List Event) (startTime now : Int)
    (hne : route ≠ [])
    (hnow : startTime + ((route.getLast hne).tsOffsetMin : Int) * 60000 ≤ now) :
    currentIndex route startTime now = route.length - 1 ∧
    (etaMs route startTime).map (fun eta => formatCountdown (eta - now)) = some "Arrived" ∧
    (∀ T : Int, currentIndex (catalogRoute "TM123456789") T (T + 1440 * 60000) = 5 ∧
      (etaMs (catalogRoute "TM123456789") T).map
        (fun eta => formatCountdown (eta - (T + 1440 * 60000))) = some "Arrived") := by
  refine ⟨?_, ?_, ?_⟩
  · unfold currentIndex
    apply scanRoute_eq_last _ route hne
    exact (le_elapsedMin_iff startTime now _).mpr (Or.inr hnow)
  · rw [etaMs_of_ne_nil route startTime hne]
    simp only [Option.map_some']
    rw [(formatCountdown_eq_arrived_iff _).mpr (by omega)]
  · intro T
    have he : elapsedMin T (T + 1440 * 60000) = 1440 := by
      unfold elapsedMin
      omega
    refine ⟨by unfold currentIndex; rw [he]; decide, ?_⟩
    rw [etaMs_of_ne_nil _ T (by decide : catalogRoute "TM123456789" ≠ [])]
    simp only [Option.map_some']
    rw [(formatCountdown_eq_arrived_iff _).mpr]
    have : (((catalogRoute "TM123456789").getLast (by decide)).tsOffsetMin : Int) = 1440 := by
      decide
    omega

/-- C2 at the first catalog route, start time 1000 and a clock 1440 minutes
later. -/
theorem C2_witness :
    currentIndex (catalogRoute "TM123456789") 1000 86401000 = 5 ∧
    (etaMs (catalogRoute "TM123456789") 1000).map
      (fun eta => formatCountdown (eta - 86401000)) = some "Arrived" :=
  ⟨(C2_at_or_after_eta_last_index_and_arrived (catalogRoute "TM123456789") 1000 86401000
      (by decide) (by decide)).1,
   (C2_at_or_after_eta_last_index_and_arrived (catalogRoute "TM123456789") 1000 86401000
      (by decide) (by decide)).2.1⟩

/-- C3.  For a fixed route (empty or not) and start time, the derived index
does not decrease when the clock advances, also for clock readings before the
start time. -/
theorem C3_currentIndex_monotone (route : List Event) (startTime now1 now2 : Int)
    (h : now1 ≤ now2) :
    currentIndex route startTime now1 ≤ currentIndex route startTime now2 :=
  scanRoute_mono route _ _ (elapsedMin_mono startTime now1 now2 h)

/-- C3 on the first catalog route, from one minute before the start to 400
minutes after it. -/
theorem C3_witness :
    currentIndex (catalogRoute "TM123456789") 60000 0 ≤
      currentIndex (catalogRoute "TM123456789") 60000 24060000 :=
  C3_currentIndex_monotone (catalogRoute "TM123456789") 60000 0 24060000 (by decide)

/-- C4, as stated, fails: on a two-event route whose second event is also at
offset 0, the derivation at `now = startTime` gives index 1. -/
theorem C4_counterexample :
    tiedRoute ≠ [] ∧ currentIndex tiedRoute 0 0 = 1 ∧
    ¬ (∀ (route : List Event) (startTime : Int), route ≠ [] →
        currentIndex route startTime startTime = 0) := by
  refine ⟨by decide, by decide, ?_⟩
  intro h
  exact absurd (h tiedRoute 0 (by decide)) (by decide)

/-- C4, amended.  At `now = startTime` the derived index is 0 exactly when no
event after the first has offset 0. -/
theorem C4_index_zero_at_start_iff (route : List Event) (startTime : Int) :
    currentIndex route startTime startTime = 0 ↔
      ∀ (i : Nat) (ev : Event), 0 < i → route[i]? = some ev → ev.tsOffsetMin ≠ 0 := by
  have he : elapsedMin startTime startTime = 0 := by
    unfold elapsedMin
    omega
  unfold currentIndex
  rw [he]
  constructor
  · intro h0 i ev hi hev hoff
    have hq : ((ev.tsOffsetMin : Nat) : Int) ≤ 0 := by omega
    rcases scanRoute_cases 0 route 0 0 with ⟨_, hnone⟩ | ⟨j, _, _, _, hr, hmax⟩
    · exact hnone i ev hev hq
    · have := hmax i ev hev hq
      omega
  · intro hpos
    rcases scanRoute_cases 0 route 0 0 with ⟨hr, _⟩ | ⟨j, ev, hj, hle, hr, _⟩
    · exact hr
    · cases j with
      | zero => omega
      | succ j => exact absurd (by omega) (hpos (j + 1) ev (Nat.succ_pos j) hj)

/-- C10, as stated, fails: on a two-event route whose last offset is 0, one
minute before the start time the derived index is already the last index while
the countdown still shows a positive duration. -/
theorem C10_counterexample :
    2 ≤ tiedRoute.length ∧
    currentIndex tiedRoute 60000 0 = tiedRoute.length - 1 ∧
    (etaMs tiedRoute 60000).map (fun eta => formatCountdown (eta - 0)) = some "1m 0s" ∧
    ¬ (∀ (route : List Event) (startTime now : Int), 2 ≤ route.length →
        (currentIndex route startTime now = route.length - 1 ↔
          (etaMs route startTime).map (fun eta => formatCountdown (eta - now)) =
            some "Arrived")) := by
  refine ⟨by decide, by decide, by decide, ?_⟩
  intro h
  have h1 := (h tiedRoute 60000 0 (by decide)).mp (by decide)
  exact absurd h1 (by decide)

/-- C10, amended.  On a route with at least two events, when the last offset
is positive or the clock has reached the start time, the derived index is the
last index exactly when the countdown of `eta - now` is the arrived
indicator. -/
theorem C10_delivered_iff_arrived (route : List Event) (startTime now : Int)
    (hne : route ≠ []) (h2 : 2 ≤ route.length)
    (hdom : 0 < (route.getLast hne).tsOffsetMin ∨ startTime ≤ now) :
    currentIndex route startTime now = route.length - 1 ↔
      (etaMs route startTime).map (fun eta => formatCountdown (eta - now)) =
        some "Arrived" := by
  unfold currentIndex
  rw [scanRoute_eq_last_iff _ route hne h2, le_elapsedMin_iff, etaMs_of_ne_nil route startTime hne]
  simp only [Option.map_some', Option.some.injEq]
  rw [formatCountdown_eq_arrived_iff]
  constructor
  · rintro (h0 | h)
    · rcases hdom with hd | hd
      · omega
      · rw [h0]; simp; omega
    · omega
  · intro h
    right
    omega

/-- C10, amended, on the first catalog route at the very moment of the ETA. -/
theorem C10_witness :
    currentIndex (catalogRoute "TM123456789") 0 86400000 =
        (catalogRoute "TM123456789").length - 1 ↔
      (etaMs (catalogRoute "TM123456789") 0).map (fun eta => formatCountdown (eta - 86400000)) =
        some "Arrived" :=
  C10_delivered_iff_arrived (catalogRoute "TM123456789") 0 86400000 (by decide) (by decide)
    (Or.inl (by decide))

/-! ## The countdown: claim C5 -/

/-- C5.  For a positive `ms`, with `s = floor (ms / 1000)`, there is exactly one
way to write `s = d * 86400 + h * 3600 + m * 60 + sec` with `h < 24`, `m < 60`
and `sec < 60`, and `formatCountdown ms` is the space-joined list made of the
day field when `d` is non-zero, the hour field when `d` or `h` is non-zero, then
always the minute field and the second field.  One minute gives `1m 0s`. -/
theorem C5_formatCountdown_fields (ms : Int) (hms : 0 < ms) :
    (∃ d h m sec : Nat,
      (ms / 1000 = ((d * 86400 + h * 3600 + m * 60 + sec : Nat) : Int) ∧
        h < 24 ∧ m < 60 ∧ sec < 60) ∧
      (∀ d2 h2 m2 sec2 : Nat,
        ms / 1000 = ((d2 * 86400 + h2 * 3600 + m2 * 60 + sec2 : Nat) : Int) →
        h2 < 24 → m2 < 60 → sec2 < 60 → d2 = d ∧ h2 = h ∧ m2 = m ∧ sec2 = sec) ∧
      formatCountdown ms =
        String.intercalate " "
          ((if d ≠ 0 then [toString d ++ "d"] else []) ++
           (if d ≠ 0 ∨ h ≠ 0 then [toString h ++ "h"] else []) ++
           [toString m ++ "m", toString sec ++ "s"])) ∧
    formatCountdown 60000 = "1m 0s" := by
  refine ⟨?_, by decide⟩
  have hn : ¬ ms ≤ 0 := not_le.mpr hms
  refine ⟨(ms / 1000).toNat / 86400, (ms / 1000).toNat % 86400 / 3600,
    (ms / 1000).toNat % 3600 / 60, (ms / 1000).toNat % 60, ⟨?_, ?_, ?_, ?_⟩, ?_, ?_⟩
  · omega
  · omega
  · omega
  · omega
  · intro d2 h2 m2 sec2 hs hh hm hsec
    omega
  · unfold formatCountdown
    simp only [hn, if_false]
    by_cases hd : (ms / 1000).toNat / 86400 = 0 <;>
      by_cases hh : (ms / 1000).toNat % 86400 / 3600 = 0 <;>
      simp [hd, hh]

/-- C5 at one minute: the fields are `1m` and `0s`, with no day or hour
field. -/
theorem C5_witness :
    (0 : Int) < 60000 ∧ formatCountdown 60000 = "1m 0s" :=
  ⟨by decide, (C5_formatCountdown_fields 60000 (by decide)).2⟩

/-! ## `parseInt` undoes `String` on integers -/

/-- The ten digit characters. -/
theorem digitChar_facts (d : Nat) (h : d < 10) :
    (Nat.digitChar d).isDigit = true ∧ (Nat.digitChar d).toNat - 48 = d ∧
    isStrWhiteSpaceChar (Nat.digitChar d) = false ∧
    Nat.digitChar d ≠ '-' ∧ Nat.digitChar d ≠ '+' := by
  interval_cases d <;> decide

/-- Printing a number in base ten yields digit characters only. -/
theorem toDigitsCore_all_digits (fuel : Nat) : ∀ (n : Nat) (ds : List Char),
    (∀ c ∈ ds, c.isDigit = true) → ∀ c ∈ Nat.toDigitsCore 10 fuel n ds, c.isDigit = true := by
  induction fuel with
  | zero => intro n ds hds; simpa [Nat.toDigitsCore] using hds
  | succ fuel ih =>
    intro n ds hds
    have hd := (digitChar_facts (n % 10) (Nat.mod_lt _ (by decide))).1
    have hds2 : ∀ c ∈ Nat.digitChar (n % 10) :: ds, c.isDigit = true := by
      intro c hc
      rcases List.mem_cons.mp hc with rfl | hc
      · exact hd
      · exact hds c hc
    unfold Nat.toDigitsCore
    simp only
    split
    · exact hds2
    · exact ih _ _ hds2

/-- Reading the printed digits back gives the number, on top of what follows. -/
theorem toDigitsCore_value (fuel : Nat) : ∀ (n : Nat) (ds : List Char), n < fuel →
    (Nat.toDigitsCore 10 fuel n ds).foldl (fun acc c => acc * 10 + (c.toNat - 48)) 0 =
      ds.foldl (fun acc c => acc * 10 + (c.toNat - 48)) n := by
  induction fuel with
  | zero => intro n ds h; omega
  | succ fuel ih =>
    intro n ds hlt
    have hd := (digitChar_facts (n % 10) (Nat.mod_lt _ (by decide))).2.1
    unfold Nat.toDigitsCore
    simp only
    split
    · rename_i h0
      simp only [List.foldl_cons, hd]
      congr 1
      omega
    · rename_i h0
      rw [ih (n / 10) _ (by omega)]
      simp only [List.foldl_cons, hd]
      congr 1
      omega

/-- A printed number has at least one digit. -/
theorem toDigitsCore_ne_nil (fuel n : Nat) (ds : List Char) :
    Nat.toDigitsCore 10 (fuel + 1) n ds ≠ [] := by
  induction fuel generalizing n ds with
  | zero => unfold Nat.toDigitsCore; simp only; split <;> simp [Nat.toDigitsCore]
  | succ fuel ih =>
    unfold Nat.toDigitsCore
    simp only
    split
    · simp
    · exact ih _ _

/-- The characters of a printed natural number. -/
theorem toString_nat_data (n : Nat) : (toString n).data = Nat.toDigits 10 n := rfl


/-- A decimal digit has a code point from 48 to 57. -/
theorem isDigit_bounds (c : Char) (h : c.isDigit = true) : 48 ≤ c.toNat ∧ c.toNat ≤ 57 := by
  simp only [Char.isDigit, Bool.and_eq_true, decide_eq_true_eq, ge_iff_le] at h
  obtain ⟨h1, h2⟩ := h
  have h1n : (48 : UInt32).toNat ≤ c.val.toNat := h1
  have h2n : c.val.toNat ≤ (57 : UInt32).toNat := h2
  exact ⟨h1n, h2n⟩

/-- A decimal digit is neither white space nor a sign. -/
theorem isDigit_not_space_nor_sign (c : Char) (h : c.isDigit = true) :
    isStrWhiteSpaceChar c = false ∧ c ≠ '-' ∧ c ≠ '+' := by
  obtain ⟨h1, h2⟩ := isDigit_bounds c h
  refine ⟨?_, ?_, ?_⟩
  · simp only [isStrWhiteSpaceChar, Bool.or_eq_false_iff, decide_eq_false_iff_not,
      Bool.and_eq_false_imp, decide_eq_true_eq, List.mem_cons, List.mem_singleton, not_or,
      List.not_mem_nil, not_false_eq_true, and_true]
    omega
  · intro hc
    have : c.toNat = 45 := by subst hc; rfl
    omega
  · intro hc
    have : c.toNat = 43 := by subst hc; rfl
    omega

/-- A list that starts with a digit carries no sign. -/
theorem splitSign_of_digit (c : Char) (cs : List Char) (hm : c ≠ '-') (hp : c ≠ '+') :
    splitSign (c :: cs) = (false, c :: cs) := by
  unfold splitSign
  split
  · rename_i heq
    simp only [List.cons.injEq] at heq
    exact absurd heq.1 hm
  · rename_i heq
    simp only [List.cons.injEq] at heq
    exact absurd heq.1 hp
  · rfl

/-- What `parseInt` reads from a run of digits that is all there is. -/
theorem parseInt_digits (l : List Char) (hne : l ≠ []) (hall : ∀ c ∈ l, c.isDigit = true) :
    parseInt (String.mk l) = some (digitsValue l : Int) := by
  obtain ⟨c, cs, rfl⟩ := List.exists_cons_of_ne_nil hne
  have hc : c.isDigit = true := hall c (List.mem_cons_self _ _)
  obtain ⟨hw, hm, hp⟩ := isDigit_not_space_nor_sign c hc
  have htake : (c :: cs).takeWhile Char.isDigit = c :: cs :=
    List.takeWhile_eq_self_iff.mpr hall
  unfold parseInt
  simp only [List.dropWhile_cons, hw, Bool.false_eq_true, if_false,
    splitSign_of_digit c cs hm hp, htake]
  simp

/-- What `parseInt` reads from a minus sign followed by a run of digits. -/
theorem parseInt_neg_digits (l : List Char) (hne : l ≠ [])
    (hall : ∀ c ∈ l, c.isDigit = true) :
    parseInt (String.mk ('-' :: l)) = some (-(digitsValue l : Int)) := by
  have htake : l.takeWhile Char.isDigit = l := List.takeWhile_eq_self_iff.mpr hall
  have hw : isStrWhiteSpaceChar '-' = false := by decide
  have hs : splitSign ('-' :: l) = (true, l) := rfl
  unfold parseInt
  simp only [List.dropWhile_cons, hw, Bool.false_eq_true, if_false, hs, htake]
  simp [hne]

/-- `parseInt(String(n), 10)` gives back the integer `n`. -/
theorem parseInt_toString (n : Int) : parseInt (toString n) = some n := by
  have hnat : ∀ m : Nat, (Nat.toDigits 10 m ≠ [] ∧ (∀ c ∈ Nat.toDigits 10 m, c.isDigit = true)) ∧
      digitsValue (Nat.toDigits 10 m) = m := by
    intro m
    refine ⟨⟨toDigitsCore_ne_nil m m [], toDigitsCore_all_digits _ _ _ (by simp)⟩, ?_⟩
    unfold digitsValue Nat.toDigits
    rw [toDigitsCore_value (m + 1) m [] (Nat.lt_succ_self m)]
    rfl
  cases n with
  | ofNat m =>
    have h := parseInt_digits (Nat.toDigits 10 m) (hnat m).1.1 (hnat m).1.2
    rw [(hnat m).2] at h
    exact h
  | negSucc m =>
    have h := parseInt_neg_digits (Nat.toDigits 10 (m + 1)) (hnat (m + 1)).1.1 (hnat (m + 1)).1.2
    rw [(hnat (m + 1)).2] at h
    exact h

/-- `String(n)` is never the empty string. -/
theorem toString_int_ne_empty (n : Int) : toString n ≠ "" := by
  intro h
  have h2 := parseInt_toString n
  rw [h] at h2
  rw [show parseInt "" = none by decide] at h2; exact absurd h2 (by simp)

/-! ## The start-time store: claim C6 -/

/-- With a truthy entry stored, `getStartTime` parses it and writes nothing. -/
theorem getStartTime_of_truthy (store : Store) (tracking : String) (dateNow : Int) (draw : Nat)
    (h : truthy (getItem store (LS_START_PREFIX ++ tracking)) = true) :
    getStartTime store tracking dateNow draw =
      ((getItem store (LS_START_PREFIX ++ tracking)).bind parseInt, store) := by
  simp [getStartTime, h]

/-- Without a truthy entry, `getStartTime` stores and returns the backdated
clock reading. -/
theorem getStartTime_of_falsy (store : Store) (tracking : String) (dateNow : Int) (draw : Nat)
    (h : truthy (getItem store (LS_START_PREFIX ++ tracking)) = false) :
    getStartTime store tracking dateNow draw =
      (some (dateNow - ((draw * 60 * 1000 : Nat) : Int)),
        setItem store (LS_START_PREFIX ++ tracking)
          (toString (dateNow - ((draw * 60 * 1000 : Nat) : Int)))) := by
  simp [getStartTime, h]

/-- Reading back the key just written. -/
theorem getItem_setItem_same (store : Store) (key value : String) :
    getItem (setItem store key value) key = some value := by
  simp [getItem, setItem]

/-- Reading another key than the one just written. -/
theorem getItem_setItem_other (store : Store) (key value other : String) (h : other ≠ key) :
    getItem (setItem store key value) other = getItem store other := by
  simp [getItem, setItem, h]

/-- After any call of `getStartTime` a truthy entry is stored. -/
theorem truthy_after_getStartTime (store : Store) (tracking : String) (dateNow : Int)
    (draw : Nat) :
    truthy (getItem (getStartTime store tracking dateNow draw).2
      (LS_START_PREFIX ++ tracking)) = true := by
  cases h : truthy (getItem store (LS_START_PREFIX ++ tracking)) with
  | true => rw [getStartTime_of_truthy store tracking dateNow draw h]; exact h
  | false =>
    rw [getStartTime_of_falsy store tracking dateNow draw h]
    simp only [getItem_setItem_same, truthy, decide_eq_true_eq]
    exact toString_int_ne_empty _

/-- C6.  For every store, tracking number, clock readings and random draws (in
particular for `now1 ≤ now2`), a second call of `getStartTime` returns what the
first call returned and leaves the store as the first call left it; and a call
that finds a truthy entry leaves the store untouched.  (A stored text that is
not a number is returned as `NaN` by both calls.) -/
theorem C6_getStartTime_idempotent (store : Store) (tracking : String) (now1 now2 : Int)
    (draw1 draw2 : Nat) :
    (getStartTime (getStartTime store tracking now1 draw1).2 tracking now2 draw2).1 =
        (getStartTime store tracking now1 draw1).1 ∧
    (getStartTime (getStartTime store tracking now1 draw1).2 tracking now2 draw2).2 =
        (getStartTime store tracking now1 draw1).2 ∧
    (truthy (getItem store (LS_START_PREFIX ++ tracking)) = true →
      (getStartTime store tracking now1 draw1).2 = store) := by
  have h2 := truthy_after_getStartTime store tracking now1 draw1
  rw [getStartTime_of_truthy _ tracking now2 draw2 h2]
  refine ⟨?_, rfl, ?_⟩
  · cases h : truthy (getItem store (LS_START_PREFIX ++ tracking)) with
    | true => rw [getStartTime_of_truthy store tracking now1 draw1 h]
    | false =>
      rw [getStartTime_of_falsy store tracking now1 draw1 h]
      simp only [getItem_setItem_same, Option.bind_some]
      exact parseInt_toString _
  · intro h
    rw [getStartTime_of_truthy store tracking now1 draw1 h]

/-- C6 on an empty store: the first call backdates the clock reading 1000000
by three minutes and stores it; the second call, later and with another draw,
returns the same 820000. -/
theorem C6_witness :
    (getStartTime (getStartTime emptyStore "TM123456789" 1000000 3).2 "TM123456789"
      2000000 7).1 = some 820000 :=
  (C6_getStartTime_idempotent emptyStore "TM123456789" 1000000 2000000 3 7).1.trans
    (by decide)

/-! ## Status-change detection: claim C7 -/

/-- The two key families never collide. -/
theorem lastKey_ne_startKey (t1 t2 : String) :
    LS_LAST_STATUS_PREFIX ++ t1 ≠ LS_START_PREFIX ++ t2 := by
  intro h
  have h2 := congrArg (fun s : String => s.data[4]?) h
  simp [LS_LAST_STATUS_PREFIX, LS_START_PREFIX, String.data_append] at h2

/-- A call of `getStartTime` leaves every last-status entry as it was. -/
theorem getItem_lastKey_after_getStartTime (store : Store) (t1 t2 : String) (dateNow : Int)
    (draw : Nat) :
    getItem (getStartTime store t2 dateNow draw).2 (LS_LAST_STATUS_PREFIX ++ t1) =
      getItem store (LS_LAST_STATUS_PREFIX ++ t1) := by
  cases h : truthy (getItem store (LS_START_PREFIX ++ t2)) with
  | true => rw [getStartTime_of_truthy store t2 dateNow draw h]
  | false =>
    rw [getStartTime_of_falsy store t2 dateNow draw h]
    exact getItem_setItem_other _ _ _ _ (lastKey_ne_startKey t1 t2)

/-- The store `getMockTracking` hands back differs from the one it was given
at most in a start-time entry. -/
theorem getItem_lastKey_after_getMockTracking (store : Store) (t1 t2 : String)
    (dateNowA : Int) (draw : Nat) (dateNowB : Int) :
    getItem (getMockTracking store t2 dateNowA draw dateNowB).2 (LS_LAST_STATUS_PREFIX ++ t1) =
      getItem store (LS_LAST_STATUS_PREFIX ++ t1) := by
  unfold getMockTracking
  split
  · rfl
  · exact getItem_lastKey_after_getStartTime store t1 t2 dateNowA draw
  · simp only
    split <;> exact getItem_lastKey_after_getStartTime store t1 t2 dateNowA draw

/-- The status step of `updateUI` on an arbitrary store.  Whenever the lookup
returned a session whose current event is `nowEv`, a notification is raised
exactly when the stored last-status value is truthy (present and not the empty
string) and differs from the new status key, and the new status key is stored
afterwards. -/
theorem updateUI_status_step (ui : UIState) (tracking : String)
    (dateNowA : Int) (draw : Nat) (dateNowB dateNowC : Int) (data : TrackingSession)
    (nowEv : Event)
    (hget : (getMockTracking ui.store tracking dateNowA draw dateNowB).1 =
      Outcome.returned (some data))
    (hev : data.nowEvent = some nowEv) :
    ((updateUI ui tracking dateNowA draw dateNowB dateNowC).2.notified ≠ ui.notified ↔
      ∃ prev : String, getItem ui.store (LS_LAST_STATUS_PREFIX ++ tracking) = some prev ∧
        prev ≠ "" ∧ prev ≠ nowEv.statusKey) ∧
    ((updateUI ui tracking dateNowA draw dateNowB dateNowC).2.notified = ui.notified ∨
      (updateUI ui tracking dateNowA draw dateNowB dateNowC).2.notified =
        ui.notified ++ [("Status changed", tracking ++ ": " ++ nowEv.title)]) ∧
    (getItem ui.store (LS_LAST_STATUS_PREFIX ++ tracking) = none →
      (updateUI ui tracking dateNowA draw dateNowB dateNowC).2.notified = ui.notified) ∧
    getItem (updateUI ui tracking dateNowA draw dateNowB dateNowC).2.store
      (LS_LAST_STATUS_PREFIX ++ tracking) = some nowEv.statusKey := by
  have hst := getItem_lastKey_after_getMockTracking ui.store tracking tracking dateNowA draw
    dateNowB
  unfold updateUI
  generalize getMockTracking ui.store tracking dateNowA draw dateNowB = g at hget hst
  obtain ⟨o, store1⟩ := g
  simp only at hget hst
  subst hget
  simp only [hev, hst, getItem_setItem_same]
  cases hprev : getItem ui.store (LS_LAST_STATUS_PREFIX ++ tracking) with
  | none => simp [truthy]
  | some prev =>
    by_cases h1 : prev = ""
    · simp [truthy, h1]
    · by_cases h2 : prev = nowEv.statusKey
      · simp [truthy, h1, h2]
      · simp [truthy, h1, h2]

/-- Every status key of the catalog is a non-empty string. -/
theorem catalog_statusKey_ne_empty :
    ∀ p ∈ MOCK_DB, ∀ ev ∈ p.2.route, ev.statusKey ≠ "" := by
  decide

/-- A successful `lookup` returns the second component of a listed pair. -/
theorem lookup_mem (key : String) (pkg : Package) :
    ∀ l : List (String × Package), l.lookup key = some pkg → ∃ p ∈ l, p.2 = pkg := by
  intro l
  induction l with
  | nil => intro h; simp [List.lookup] at h
  | cons q rest ih =>
    intro h
    obtain ⟨k, v⟩ := q
    cases hk : (key == k) with
    | true =>
      simp only [List.lookup, hk] at h
      exact ⟨(k, v), List.mem_cons_self _ _, by simpa using h⟩
    | false =>
      simp only [List.lookup, hk] at h
      obtain ⟨p, hp, hpv⟩ := ih h
      exact ⟨p, List.mem_cons_of_mem _ hp, hpv⟩

/-- The current event of a session `getMockTracking` returns is an event of the
catalog, so its status key is not the empty string. -/
theorem statusKey_ne_empty_of_getMockTracking (store : Store) (tracking : String)
    (dateNowA : Int) (draw : Nat) (dateNowB : Int) (data : TrackingSession) (nowEv : Event)
    (hget : (getMockTracking store tracking dateNowA draw dateNowB).1 =
      Outcome.returned (some data))
    (hev : data.nowEvent = some nowEv) : nowEv.statusKey ≠ "" := by
  unfold getMockTracking at hget
  cases hl : lookupMockDb tracking with
  | undefined => simp [hl] at hget
  | inherited => simp [hl] at hget
  | own pkg =>
    simp only [hl] at hget
    have hmem : ∃ p ∈ MOCK_DB, p.2 = pkg := by
      unfold lookupMockDb at hl
      cases hlk : MOCK_DB.lookup tracking with
      | none =>
        simp only [hlk] at hl
        split at hl <;> simp at hl
      | some q =>
        simp only [hlk, Lookup.own.injEq] at hl
        subst hl
        exact lookup_mem tracking q MOCK_DB hlk
    obtain ⟨p, hp, hpv⟩ := hmem
    cases hlast : pkg.route[pkg.route.length - 1]? with
    | none => simp [hlast] at hget
    | some last =>
      simp only [hlast, Outcome.returned.injEq, Option.some.injEq] at hget
      subst hget
      simp only at hev
      have hin : nowEv ∈ pkg.route := List.mem_iff_getElem?.mpr ⟨_, hev⟩
      rw [← hpv] at hin
      exact catalog_statusKey_ne_empty p hp nowEv hin

/-- The store the script starts from on a fresh origin satisfies
`StatusEntriesOk`. -/
theorem statusEntriesOk_emptyStore : StatusEntriesOk emptyStore := by
  intro t h
  simp [getItem, emptyStore] at h

/-- Every call of `updateUI`, whatever its tracking number and however it ends,
keeps `StatusEntriesOk`: the only write to a last-status entry is line 236,
with a status key of the catalog. -/
theorem updateUI_keeps_status_entries (ui : UIState) (tracking : String) (dateNowA : Int)
    (draw : Nat) (dateNowB dateNowC : Int) (hok : StatusEntriesOk ui.store) :
    StatusEntriesOk (updateUI ui tracking dateNowA draw dateNowB dateNowC).2.store := by
  intro t
  have hst := getItem_lastKey_after_getMockTracking ui.store t tracking dateNowA draw dateNowB
  have hkey := statusKey_ne_empty_of_getMockTracking ui.store tracking dateNowA draw dateNowB
  unfold updateUI
  generalize getMockTracking ui.store tracking dateNowA draw dateNowB = g at hst hkey
  obtain ⟨o, store1⟩ := g
  simp only at hst hkey
  cases o with
  | threw => simp only [hst]; exact hok t
  | returned r =>
    cases r with
    | none => simp only [hst]; exact hok t
    | some data =>
      cases hev : data.nowEvent with
      | none => simp only [hev, hst]; exact hok t
      | some nowEv =>
        simp only [hev]
        by_cases ht : LS_LAST_STATUS_PREFIX ++ t = LS_LAST_STATUS_PREFIX ++ tracking
        · rw [ht, getItem_setItem_same]
          intro h
          exact hkey data nowEv rfl hev (by simpa using h)
        · rw [getItem_setItem_other _ _ _ _ ht, hst]
          exact hok t

/-- The guard `prevStatus &&` of line 233 treats a stored empty string like a
missing entry: on a store that holds the empty string as last status, which no
write of the program produces, the first catalog number loads without a
notification. -/
theorem updateUI_empty_entry_is_silent :
    getItem emptyStatusUI.store (LS_LAST_STATUS_PREFIX ++ "TM123456789") = some "" ∧
    (updateUI emptyStatusUI "TM123456789" 0 0 0 0).1 = Outcome.returned () ∧
    getItem (updateUI emptyStatusUI "TM123456789" 0 0 0 0).2.store
      (LS_LAST_STATUS_PREFIX ++ "TM123456789") = some "created" ∧
    (updateUI emptyStatusUI "TM123456789" 0 0 0 0).2.notified = emptyStatusUI.notified := by
  decide

/-- C7.  Status-change detection in `updateUI`, over an explicit store whose
last-status entry for the tracking number, if there is one, is a status key the
program stored (so not the empty string; `statusEntriesOk_emptyStore` and
`updateUI_keeps_status_entries` show that the program's stores are all such).
Whenever the call reaches the status step with new status key
`nowEv.statusKey`: a notification is raised if and only if a last-status value
is already stored for that tracking number and differs from the new status
key; it is never raised on the first observation (no stored value); it is
always raised, as the status change of this tracking number, when the stored
key differs from the new one; and after the call the stored last-status value
equals the new status key, which is again not the empty string. -/
theorem C7_notification_iff_stored_differs (ui : UIState) (tracking : String)
    (dateNowA : Int) (draw : Nat) (dateNowB dateNowC : Int) (data : TrackingSession)
    (nowEv : Event)
    (hget : (getMockTracking ui.store tracking dateNowA draw dateNowB).1 =
      Outcome.returned (some data))
    (hev : data.nowEvent = some nowEv)
    (hstored : getItem ui.store (LS_LAST_STATUS_PREFIX ++ tracking) ≠ some "") :
    ((updateUI ui tracking dateNowA draw dateNowB dateNowC).2.notified ≠ ui.notified ↔
      ∃ prev : String, getItem ui.store (LS_LAST_STATUS_PREFIX ++ tracking) = some prev ∧
        prev ≠ nowEv.statusKey) ∧
    (getItem ui.store (LS_LAST_STATUS_PREFIX ++ tracking) = none →
      (updateUI ui tracking dateNowA draw dateNowB dateNowC).2.notified = ui.notified) ∧
    (∀ prev : String, getItem ui.store (LS_LAST_STATUS_PREFIX ++ tracking) = some prev →
      prev ≠ nowEv.statusKey →
      (updateUI ui tracking dateNowA draw dateNowB dateNowC).2.notified =
        ui.notified ++ [("Status changed", tracking ++ ": " ++ nowEv.title)]) ∧
    (∀ prev : String, getItem ui.store (LS_LAST_STATUS_PREFIX ++ tracking) = some prev →
      prev = nowEv.statusKey →
      (updateUI ui tracking dateNowA draw dateNowB dateNowC).2.notified = ui.notified) ∧
    getItem (updateUI ui tracking dateNowA draw dateNowB dateNowC).2.store
      (LS_LAST_STATUS_PREFIX ++ tracking) = some nowEv.statusKey ∧
    getItem (updateUI ui tracking dateNowA draw dateNowB dateNowC).2.store
      (LS_LAST_STATUS_PREFIX ++ tracking) ≠ some "" := by
  obtain ⟨hiff, hor, hnone, hafter⟩ :=
    updateUI_status_step ui tracking dateNowA draw dateNowB dateNowC data nowEv hget hev
  have hkey := statusKey_ne_empty_of_getMockTracking ui.store tracking dateNowA draw dateNowB
    data nowEv hget hev
  have hiff2 : (updateUI ui tracking dateNowA draw dateNowB dateNowC).2.notified ≠ ui.notified ↔
      ∃ prev : String, getItem ui.store (LS_LAST_STATUS_PREFIX ++ tracking) = some prev ∧
        prev ≠ nowEv.statusKey := by
    rw [hiff]
    constructor
    · rintro ⟨prev, hp, _, hd⟩
      exact ⟨prev, hp, hd⟩
    · rintro ⟨prev, hp, hd⟩
      refine ⟨prev, hp, ?_, hd⟩
      intro he
      exact hstored (by rw [hp, he])
  refine ⟨hiff2, hnone, ?_, ?_, hafter, ?_⟩
  · intro prev hp hd
    rcases hor with h0 | h1
    · exact absurd h0 (hiff2.mpr ⟨prev, hp, hd⟩)
    · exact h1
  · intro prev hp he
    by_contra hne
    obtain ⟨prev2, hp2, hd2⟩ := hiff2.mp hne
    rw [hp] at hp2
    exact hd2 ((Option.some.inj hp2) ▸ he)
  · rw [hafter]
    intro h
    exact hkey (by simpa using h)

/-- C7 on the first catalog number, first observation and later call: on the
empty store the first call raises nothing and stores `created`; with `created`
stored and the clock 100 minutes past the stored start time 0, the change to
`picked` is notified and `picked` is stored. -/
theorem C7_witness :
    (updateUI freshUI "TM123456789" 0 0 0 0).2.notified = freshUI.notified ∧
    getItem (updateUI freshUI "TM123456789" 0 0 0 0).2.store
      (LS_LAST_STATUS_PREFIX ++ "TM123456789") = some "created" ∧
    (updateUI createdUI "TM123456789" 6000000 0 6000000 6000000).2.notified =
      [("Status changed", "TM123456789: Picked up")] ∧
    getItem (updateUI createdUI "TM123456789" 6000000 0 6000000 6000000).2.store
      (LS_LAST_STATUS_PREFIX ++ "TM123456789") = some "picked" := by
  have h0 := C7_notification_iff_stored_differs freshUI "TM123456789" 0 0 0 0
    (TrackingSession.mk "MockExpress" (catalogRoute "TM123456789") 0
      (some (Event.mk "Label created" 0 340522 (-1182437) "Los Angeles, CA" "created"))
      (some 86400000))
    (Event.mk "Label created" 0 340522 (-1182437) "Los Angeles, CA" "created")
    (by decide) rfl (by decide)
  have h := C7_notification_iff_stored_differs createdUI "TM123456789" 6000000 0
    6000000 6000000
    (TrackingSession.mk "MockExpress" (catalogRoute "TM123456789") 1
      (some (Event.mk "Picked up" 60 341000 (-1183000) "Los Angeles, CA" "picked"))
      (some 86400000))
    (Event.mk "Picked up" 60 341000 (-1183000) "Los Angeles, CA" "picked")
    (by decide) rfl (by decide)
  exact ⟨h0.2.1 (by decide), h0.2.2.2.2.1, h.2.2.1 "created" (by decide) (by decide),
    h.2.2.2.2.1⟩

/-! ## Unknown tracking numbers: claim C8 -/

/-- A string that is neither a catalog key nor a name inherited from
`Object.prototype` reads as `undefined`. -/
theorem lookupMockDb_undefined (tracking : String)
    (hown : tracking ∉ MOCK_DB.map Prod.fst) (hinh : tracking ∉ objectPrototypeKeys) :
    lookupMockDb tracking = Lookup.undefined := by
  have hl : MOCK_DB.lookup tracking = none := by
    simp only [MOCK_DB, List.map_cons, List.map_nil, List.mem_cons, List.mem_singleton,
      List.not_mem_nil, or_false, not_or] at hown
    obtain ⟨h1, h2, h3⟩ := hown
    have b1 : (tracking == "TM123456789") = false := beq_false_of_ne h1
    have b2 : (tracking == "TM987654321") = false := beq_false_of_ne h2
    have b3 : (tracking == "TM555000111") = false := beq_false_of_ne h3
    simp only [MOCK_DB, List.lookup, b1, b2, b3]
  simp [lookupMockDb, hl, hinh]

/-- On a string that reads as `undefined`, `getMockTracking` returns `null` and
`updateUI` shows the not-found toast; neither touches the store. -/
theorem not_found_leaves_store (ui : UIState) (tracking : String) (dateNowA : Int)
    (draw : Nat) (dateNowB dateNowC : Int)
    (hown : tracking ∉ MOCK_DB.map Prod.fst) (hinh : tracking ∉ objectPrototypeKeys) :
    getMockTracking ui.store tracking dateNowA draw dateNowB =
      (Outcome.returned none, ui.store) ∧
    (updateUI ui tracking dateNowA draw dateNowB dateNowC).1 = Outcome.returned () ∧
    (updateUI ui tracking dateNowA draw dateNowB dateNowC).2.store = ui.store ∧
    (updateUI ui tracking dateNowA draw dateNowB dateNowC).2.toasts =
      ui.toasts ++ ["Tracking number not found"] := by
  have hg : getMockTracking ui.store tracking dateNowA draw dateNowB =
      (Outcome.returned none, ui.store) := by
    simp [getMockTracking, lookupMockDb_undefined tracking hown hinh]
  refine ⟨hg, ?_, ?_, ?_⟩ <;> simp [updateUI, hg]

/-- The not-found path at `ZZ000`. -/
theorem not_found_ZZ000 (ui : UIState) (dateNowA : Int) (draw : Nat)
    (dateNowB dateNowC : Int) :
    getMockTracking ui.store "ZZ000" dateNowA draw dateNowB =
      (Outcome.returned none, ui.store) ∧
    (updateUI ui "ZZ000" dateNowA draw dateNowB dateNowC).2.store = ui.store :=
  ⟨(not_found_leaves_store ui "ZZ000" dateNowA draw dateNowB dateNowC (by decide)
      (by decide)).1,
   (not_found_leaves_store ui "ZZ000" dateNowA draw dateNowB dateNowC (by decide)
      (by decide)).2.2.1⟩

/-- C8 at the string `constructor`, which is not a catalog key: the property
read on line 126 finds the inherited `Object`, so line 127 does not return;
`getStartTime` writes a start-time entry into the empty store, and the call
ends with the `TypeError` of `route.length` instead of returning `null`.
`updateUI` on the same string ends the same way. -/
theorem C8_constructor_writes_start_time_and_throws :
    "constructor" ∉ MOCK_DB.map Prod.fst ∧
    getItem emptyStore (LS_START_PREFIX ++ "constructor") = none ∧
    (getMockTracking emptyStore "constructor" 1000 0 1000).1 = Outcome.threw ∧
    getItem (getMockTracking emptyStore "constructor" 1000 0 1000).2
      (LS_START_PREFIX ++ "constructor") = some "1000" ∧
    (updateUI freshUI "constructor" 1000 0 1000 1000).1 = Outcome.threw ∧
    getItem (updateUI freshUI "constructor" 1000 0 1000 1000).2.store
      (LS_START_PREFIX ++ "constructor") = some "1000" := by
  decide

/-! ## The polling driver: claim C9 -/

/-- From a good state, `startPolling` leaves exactly the new timer armed. -/
theorem startPolling_of_ok (d : Driver) (tracking : String) (handle : ℕ+)
    (hd : DriverOk d) :
    startPolling d tracking handle =
      Driver.mk (some (handle : Nat)) [((handle : Nat), tracking)] := by
  rcases hd with ⟨hp, ha⟩ | ⟨h, t, hpos, hp, ha⟩
  · simp [startPolling, hp, ha]
  · have hne : h ≠ 0 := Nat.pos_iff_ne_zero.mp hpos
    simp [startPolling, hp, ha, hne, clearInterval]

/-- Every sequence of calls keeps the driver in a good state. -/
theorem runPolling_ok (calls : List (String × ℕ+)) :
    ∀ d : Driver, DriverOk d → DriverOk (runPolling d calls) := by
  induction calls with
  | nil => intro d hd; exact hd
  | cons c rest ih =>
    intro d hd
    have hstep : DriverOk (startPolling d c.1 c.2) := by
      rw [startPolling_of_ok d c.1 c.2 hd]
      exact Or.inr ⟨(c.2 : Nat), c.1, c.2.pos, rfl, rfl⟩
    exact ih _ hstep

/-- Running a sequence that ends with the call `c`. -/
theorem runPolling_snoc (d : Driver) (calls : List (String × ℕ+)) (c : String × ℕ+) :
    runPolling d (calls ++ [c]) = startPolling (runPolling d calls) c.1 c.2 := by
  simp [runPolling, List.foldl_append]

/-- C9.  Starting with no timer armed, after every sequence of `startPolling`
calls at most one timer is armed; after a sequence that ends with the call `c`
exactly one is armed, it re-evaluates the tracking number of `c`, and
`pollTimer` holds its handle.  In particular `startPolling(A)` followed by
`startPolling(B)` leaves one armed timer, bound to B, whose handle is the
stored one. -/
theorem C9_at_most_one_armed_timer (calls : List (String × ℕ+)) :
    (runPolling initialDriver calls).armed.length ≤ 1 ∧
    (∀ (front : List (String × ℕ+)) (c : String × ℕ+), calls = front ++ [c] →
      runPolling initialDriver calls = Driver.mk (some (c.2 : Nat)) [((c.2 : Nat), c.1)]) ∧
    (∀ (A B : String) (hA hB : ℕ+),
      startPolling (startPolling initialDriver A hA) B hB =
        Driver.mk (some (hB : Nat)) [((hB : Nat), B)]) := by
  have hinit : DriverOk initialDriver := Or.inl ⟨rfl, rfl⟩
  refine ⟨?_, ?_, ?_⟩
  · rcases runPolling_ok calls initialDriver hinit with ⟨_, ha⟩ | ⟨h, t, _, _, ha⟩
    · simp [ha]
    · simp [ha]
  · intro front c hcalls
    subst hcalls
    rw [runPolling_snoc]
    exact startPolling_of_ok _ _ _ (runPolling_ok front initialDriver hinit)
  · intro A B hA hB
    exact startPolling_of_ok _ _ _ (runPolling_ok [(A, hA)] initialDriver hinit)

/-- C9 on `startPolling("A")` then `startPolling("B")`, with handles 1 and 2:
one timer is armed, it re-evaluates B, and `pollTimer` is its handle 2. -/
theorem C9_witness :
    runPolling initialDriver [("A", 1), ("B", 2)] = Driver.mk (some 2) [(2, "B")] :=
  (C9_at_most_one_armed_timer [("A", 1), ("B", 2)]).2.1 [("A", 1)] ("B", 2) rfl

end PackageTracker
